import Mathlib

/-!
# Verification of the career-dataset analysis program

A shallow embedding of `src/main.rs`: CSV ingestion with row-level error
recovery and a 20 000-row cap (`read_dataset`), shuffle-and-take sampling
(`main`), descriptive statistics (`print_stats`), simple linear regression
(`calculate_linear_regression`) and correlation-strength classification
(`perform_salary_correlation_analysis`).

Numbers: the Rust code computes over `f64`.  The main embedding idealises
`f64` arithmetic as exact real arithmetic (`ℝ`).  A second embedding of the
floating-point layer (`FP`) keeps real payloads but models the IEEE-754
non-finite values (±∞, NaN) produced by division by zero, which the
degeneracy claims are about.
-/

namespace DS210

/-- `Iterator::sum` over a list of reals: a left fold starting at 0. -/
def sumL (l : List ℝ) : ℝ := l.foldl (· + ·) 0

/-- The four-tuple returned by `calculate_linear_regression`. -/
structure RegressionResult where
  slope : ℝ
  intercept : ℝ
  correlation : ℝ
  r_squared : ℝ

/-- Embedding of `calculate_linear_regression` (src/main.rs:91-127) over exact
real arithmetic.  The Rust `assert_eq!` on the lengths (line 92) aborts the
process on mismatched lengths; this is modelled by returning `none`.  The body
follows the source: means, a first pass accumulating `var_x` and `cov_xy`
(indexed loop, modelled by `List.zip`), Bessel division of `var_x` by `n - 1`,
`slope = cov_xy / (var_x * (n - 1))`, `intercept = mean_y - slope * mean_x`,
then a second pass over deviations for the correlation, and `r² = correlation²`. -/
noncomputable def calculate_linear_regression (x y : List ℝ) :
    Option RegressionResult :=
  if x.length = y.length then
    let n : ℝ := x.length
    let mean_x : ℝ := sumL x / n
    let mean_y : ℝ := sumL y / n
    let var_x0 : ℝ := sumL (x.map fun xi => (xi - mean_x) ^ 2)
    let cov_xy : ℝ := sumL ((x.zip y).map fun p => (p.1 - mean_x) * (p.2 - mean_y))
    let var_x : ℝ := var_x0 / (n - 1)
    let slope : ℝ := cov_xy / (var_x * (n - 1))
    let intercept : ℝ := mean_y - slope * mean_x
    let r_numerator : ℝ := sumL ((x.zip y).map fun p => (p.1 - mean_x) * (p.2 - mean_y))
    let r_denomx : ℝ := sumL (x.map fun xi => (xi - mean_x) ^ 2)
    let r_denomy : ℝ := sumL (y.map fun yi => (yi - mean_y) ^ 2)
    let correlation : ℝ := r_numerator / Real.sqrt (r_denomx * r_denomy)
    some ⟨slope, intercept, correlation, correlation ^ 2⟩
  else none

/-- Arithmetic mean of a list of reals (as computed by the source: sum / n). -/
noncomputable def meanL (l : List ℝ) : ℝ := sumL l / l.length

/-- Sum of squared deviations of `l` from its own mean. -/
noncomputable def sqDevSum (l : List ℝ) : ℝ :=
  sumL (l.map fun v => (v - meanL l) ^ 2)

/-- Sum of cross-deviation products of the index-paired lists `x`, `y`. -/
noncomputable def crossDevSum (x y : List ℝ) : ℝ :=
  sumL ((x.zip y).map fun p => (p.1 - meanL x) * (p.2 - meanL y))

/-- Spec-side definition (from the spec's words, for comparison with the
code): Bessel-corrected sample variance, sum of squared deviations divided
by `n - 1`. -/
noncomputable def spec_besselVariance (l : List ℝ) : ℝ :=
  sqDevSum l / (l.length - 1)

/-- Spec-side definition (from the spec's words, for comparison with the
code): Bessel-corrected sample covariance, sum of cross-deviation products
divided by `n - 1`. -/
noncomputable def spec_besselCovariance (x y : List ℝ) : ℝ :=
  crossDevSum x y / (x.length - 1)

theorem sumL_eq_sum (l : List ℝ) : sumL l = l.sum := List.sum_eq_foldl.symm

theorem sumL_cons (a : ℝ) (l : List ℝ) : sumL (a :: l) = a + sumL l := by
  rw [sumL_eq_sum, sumL_eq_sum, List.sum_cons]

theorem calculate_linear_regression_eq (x y : List ℝ)
    (hlen : x.length = y.length) :
    calculate_linear_regression x y = some
      ⟨crossDevSum x y / (sqDevSum x / ((x.length : ℝ) - 1) * ((x.length : ℝ) - 1)),
       meanL y - crossDevSum x y /
         (sqDevSum x / ((x.length : ℝ) - 1) * ((x.length : ℝ) - 1)) * meanL x,
       crossDevSum x y / Real.sqrt (sqDevSum x * sqDevSum y),
       (crossDevSum x y / Real.sqrt (sqDevSum x * sqDevSum y)) ^ 2⟩ := by
  unfold calculate_linear_regression
  rw [if_pos hlen]
  simp only [meanL, sqDevSum, crossDevSum, hlen]

theorem slope_eq_bessel_ratio (x y : List ℝ) :
    crossDevSum x y / (sqDevSum x / ((x.length : ℝ) - 1) * ((x.length : ℝ) - 1)) =
      spec_besselCovariance x y / spec_besselVariance x := by
  unfold spec_besselCovariance spec_besselVariance
  rw [div_div, mul_comm]

theorem sqrt_four_hundred : Real.sqrt ((10 : ℝ) * 40) = 20 := by
  rw [show ((10 : ℝ) * 40) = 20 ^ 2 by norm_num]
  exact Real.sqrt_sq (by norm_num)

/-- C1: for equal-length non-empty inputs, `calculate_linear_regression`
returns slope = Bessel-corrected covariance / Bessel-corrected variance of x,
intercept = mean y − slope · mean x, correlation = Σ(dx·dy)/√(Σdx²·Σdy²) and
R² = correlation²; and on x = [1,2,3,4,5], y = 2x it returns exactly
(2, 0, 1, 1). -/
theorem C1_linear_regression_spec :
    (∀ x y : List ℝ, x.length = y.length → x ≠ [] →
      calculate_linear_regression x y = some
        ⟨spec_besselCovariance x y / spec_besselVariance x,
         meanL y - spec_besselCovariance x y / spec_besselVariance x * meanL x,
         crossDevSum x y / Real.sqrt (sqDevSum x * sqDevSum y),
         (crossDevSum x y / Real.sqrt (sqDevSum x * sqDevSum y)) ^ 2⟩)
    ∧ calculate_linear_regression [1, 2, 3, 4, 5] [2, 4, 6, 8, 10] =
        some ⟨2, 0, 1, 1⟩ := by
  constructor
  · intro x y hlen _
    rw [calculate_linear_regression_eq x y hlen, slope_eq_bessel_ratio x y]
  · have h := calculate_linear_regression_eq [1, 2, 3, 4, 5] [2, 4, 6, 8, 10] rfl
    have hmx : meanL [(1 : ℝ), 2, 3, 4, 5] = 3 := by
      norm_num [meanL, sumL_eq_sum]
    have hmy : meanL [(2 : ℝ), 4, 6, 8, 10] = 6 := by
      norm_num [meanL, sumL_eq_sum]
    have hsx : sqDevSum [(1 : ℝ), 2, 3, 4, 5] = 10 := by
      norm_num [sqDevSum, hmx, sumL_eq_sum]
    have hsy : sqDevSum [(2 : ℝ), 4, 6, 8, 10] = 40 := by
      norm_num [sqDevSum, hmy, sumL_eq_sum]
    have hc : crossDevSum [(1 : ℝ), 2, 3, 4, 5] [(2 : ℝ), 4, 6, 8, 10] = 20 := by
      norm_num [crossDevSum, hmx, hmy, sumL_eq_sum, List.zip, List.zipWith]
    rw [h, hmx, hmy, hsx, hsy, hc, sqrt_four_hundred]
    norm_num [spec_besselCovariance, spec_besselVariance, hsx, hc]

/-- Witness for C1 at the concrete input x = [1,2], y = [3,4]. -/
theorem C1_linear_regression_spec_witness :
    calculate_linear_regression [1, 2] [3, 4] = some
      ⟨spec_besselCovariance [1, 2] [3, 4] / spec_besselVariance [1, 2],
       meanL [3, 4] - spec_besselCovariance [1, 2] [3, 4] /
         spec_besselVariance [1, 2] * meanL [1, 2],
       crossDevSum [1, 2] [3, 4] / Real.sqrt (sqDevSum [1, 2] * sqDevSum [3, 4]),
       (crossDevSum [1, 2] [3, 4] /
         Real.sqrt (sqDevSum [1, 2] * sqDevSum [3, 4])) ^ 2⟩ :=
  C1_linear_regression_spec.1 [1, 2] [3, 4] rfl (by simp)

/-- An IEEE-754-style `f64` value: a finite real payload, an infinity, or
NaN.  This second embedding keeps real payloads exact but models the
non-finite values produced by division by zero, which the idealised `ℝ`
embedding cannot represent. -/
inductive FP where
  | fin : ℝ → FP
  | posInf : FP
  | negInf : FP
  | nan : FP

/-- IEEE-754 addition on `FP` (sign-of-zero subtleties ignored). -/
noncomputable def FP.add : FP → FP → FP
  | .nan, _ => .nan
  | _, .nan => .nan
  | .fin a, .fin b => .fin (a + b)
  | .posInf, .negInf => .nan
  | .negInf, .posInf => .nan
  | .posInf, _ => .posInf
  | _, .posInf => .posInf
  | .negInf, _ => .negInf
  | _, .negInf => .negInf

/-- IEEE-754 subtraction on `FP`. -/
noncomputable def FP.sub : FP → FP → FP
  | .nan, _ => .nan
  | _, .nan => .nan
  | .fin a, .fin b => .fin (a - b)
  | .posInf, .posInf => .nan
  | .negInf, .negInf => .nan
  | .posInf, _ => .posInf
  | _, .posInf => .negInf
  | .negInf, _ => .negInf
  | _, .negInf => .posInf

/-- IEEE-754 multiplication on `FP`: `∞ · 0 = NaN`, otherwise signs. -/
noncomputable def FP.mul : FP → FP → FP
  | .nan, _ => .nan
  | _, .nan => .nan
  | .fin a, .fin b => .fin (a * b)
  | .posInf, .posInf => .posInf
  | .posInf, .negInf => .negInf
  | .negInf, .posInf => .negInf
  | .negInf, .negInf => .posInf
  | .posInf, .fin b => if b = 0 then .nan else if 0 < b then .posInf else .negInf
  | .fin a, .posInf => if a = 0 then .nan else if 0 < a then .posInf else .negInf
  | .negInf, .fin b => if b = 0 then .nan else if 0 < b then .negInf else .posInf
  | .fin a, .negInf => if a = 0 then .nan else if 0 < a then .negInf else .posInf

/-- IEEE-754 division on `FP`: `0/0 = NaN`, `a/0 = ±∞` for finite `a ≠ 0`,
`∞/∞ = NaN` (sign-of-zero subtleties ignored). -/
noncomputable def FP.div : FP → FP → FP
  | .nan, _ => .nan
  | _, .nan => .nan
  | .fin a, .fin b =>
      if b = 0 then (if a = 0 then .nan else if 0 < a then .posInf else .negInf)
      else .fin (a / b)
  | .fin _, .posInf => .fin 0
  | .fin _, .negInf => .fin 0
  | .posInf, .fin b => if 0 ≤ b then .posInf else .negInf
  | .negInf, .fin b => if 0 ≤ b then .negInf else .posInf
  | .posInf, _ => .nan
  | .negInf, _ => .nan

/-- IEEE-754 square root on `FP`: NaN on negative arguments. -/
noncomputable def FP.sqrt : FP → FP
  | .nan => .nan
  | .posInf => .posInf
  | .negInf => .nan
  | .fin a => if a < 0 then .nan else .fin (Real.sqrt a)

/-- `f64::is_finite`. -/
def FP.isFinite : FP → Bool
  | .fin _ => true
  | _ => false

/-- `f64::min` as used by `print_stats`: ignores a NaN operand. -/
noncomputable def FP.min : FP → FP → FP
  | .nan, b => b
  | a, .nan => a
  | .negInf, _ => .negInf
  | _, .negInf => .negInf
  | .posInf, b => b
  | a, .posInf => a
  | .fin a, .fin b => .fin (Min.min a b)

/-- `f64::max` as used by `print_stats`: ignores a NaN operand. -/
noncomputable def FP.max : FP → FP → FP
  | .nan, b => b
  | a, .nan => a
  | .posInf, _ => .posInf
  | _, .posInf => .posInf
  | .negInf, b => b
  | a, .negInf => a
  | .fin a, .fin b => .fin (Max.max a b)

/-- `Iterator::sum` over `FP` values: left fold from `+0.0`. -/
noncomputable def sumFP (l : List FP) : FP := l.foldl FP.add (FP.fin 0)

/-- The regression tuple in the `FP` embedding. -/
structure FPResult where
  slope : FP
  intercept : FP
  correlation : FP
  r_squared : FP

/-- Embedding of `calculate_linear_regression` (src/main.rs:91-127) over the
IEEE-style `FP` values: the same computation as `calculate_linear_regression`
(means, one pass for `var_x`/`cov_xy`, Bessel division, slope and intercept,
a second deviation pass for the correlation), with every `f64` operation
interpreted in `FP`, so divisions by zero yield `±∞`/NaN instead of the
convention `x / 0 = 0` of `ℝ`.  `powi(2)` is squaring, `FP.mul d d`. -/
noncomputable def calculate_linear_regression_fp (x y : List ℝ) :
    Option FPResult :=
  if x.length = y.length then
    let n : FP := .fin (x.length : ℝ)
    let mean_x : FP := FP.div (sumFP (x.map FP.fin)) n
    let mean_y : FP := FP.div (sumFP (y.map FP.fin)) n
    let var_x0 : FP := sumFP (x.map fun xi =>
      FP.mul (FP.sub (.fin xi) mean_x) (FP.sub (.fin xi) mean_x))
    let cov_xy : FP := sumFP ((x.zip y).map fun p =>
      FP.mul (FP.sub (.fin p.1) mean_x) (FP.sub (.fin p.2) mean_y))
    let var_x : FP := FP.div var_x0 (FP.sub n (.fin 1))
    let slope : FP := FP.div cov_xy (FP.mul var_x (FP.sub n (.fin 1)))
    let intercept : FP := FP.sub mean_y (FP.mul slope mean_x)
    let r_numerator : FP := sumFP ((x.zip y).map fun p =>
      FP.mul (FP.sub (.fin p.1) mean_x) (FP.sub (.fin p.2) mean_y))
    let r_denomx : FP := sumFP (x.map fun xi =>
      FP.mul (FP.sub (.fin xi) mean_x) (FP.sub (.fin xi) mean_x))
    let r_denomy : FP := sumFP (y.map fun yi =>
      FP.mul (FP.sub (.fin yi) mean_y) (FP.sub (.fin yi) mean_y))
    let correlation : FP := FP.div r_numerator (FP.sqrt (FP.mul r_denomx r_denomy))
    some ⟨slope, intercept, correlation, FP.mul correlation correlation⟩
  else none

theorem FP.add_fin (a b : ℝ) : FP.add (.fin a) (.fin b) = .fin (a + b) := rfl

theorem FP.sub_fin (a b : ℝ) : FP.sub (.fin a) (.fin b) = .fin (a - b) := rfl

theorem FP.mul_fin (a b : ℝ) : FP.mul (.fin a) (.fin b) = .fin (a * b) := rfl

theorem FP.div_fin_fin (a b : ℝ) (hb : b ≠ 0) :
    FP.div (.fin a) (.fin b) = .fin (a / b) := by
  simp [FP.div, hb]

theorem FP.div_zero_zero : FP.div (.fin 0) (.fin 0) = .nan := by
  simp [FP.div]

theorem FP.sqrt_fin_zero : FP.sqrt (.fin 0) = .fin 0 := by
  simp [FP.sqrt, Real.sqrt_zero]

theorem sumFP_map_fin (l : List ℝ) : sumFP (l.map FP.fin) = .fin (sumL l) := by
  suffices h : ∀ a : ℝ, (l.map FP.fin).foldl FP.add (.fin a) = .fin (l.foldl (· + ·) a) by
    exact h 0
  induction l with
  | nil => intro a; rfl
  | cons b t ih =>
      intro a
      rw [List.map_cons, List.foldl_cons, List.foldl_cons, FP.add_fin]
      exact ih (a + b)

theorem sumFP_map_fin_comp {α : Type} (l : List α) (g : α → ℝ) :
    sumFP (l.map fun a => FP.fin (g a)) = .fin (sumL (l.map g)) := by
  rw [show (l.map fun a => FP.fin (g a)) = (l.map g).map FP.fin by
        rw [List.map_map]; rfl,
      sumFP_map_fin]

theorem sumFP_zeros {α : Type} (l : List α) :
    sumFP (l.map fun _ => FP.fin 0) = .fin 0 := by
  rw [sumFP_map_fin_comp l (fun _ => 0)]
  congr 1
  rw [sumL_eq_sum]
  simp

theorem sumL_const (l : List ℝ) (c : ℝ) (hc : ∀ v ∈ l, v = c) :
    sumL l = (l.length : ℝ) * c := by
  rw [sumL_eq_sum, List.sum_eq_card_nsmul l c hc, nsmul_eq_mul]

theorem fp_const_x (x y : List ℝ) (hlen : x.length = y.length) (hne : x ≠ [])
    (c : ℝ) (hc : ∀ xi ∈ x, xi = c) :
    (calculate_linear_regression_fp x y).map
      (fun r => (FP.isFinite r.correlation, FP.isFinite r.slope)) =
      some (false, false) := by
  have hlen0 : x.length ≠ 0 := fun h => hne (List.length_eq_zero.mp h)
  have hn : ((x.length : ℝ)) ≠ 0 := Nat.cast_ne_zero.mpr hlen0
  have hmx : FP.div (.fin (sumL x)) (.fin (x.length : ℝ)) = .fin c := by
    rw [sumL_const x c hc, FP.div_fin_fin _ _ hn, mul_div_cancel_left₀ c hn]
  have hmy : FP.div (.fin (sumL y)) (.fin (x.length : ℝ)) =
      .fin (sumL y / (x.length : ℝ)) := FP.div_fin_fin _ _ hn
  have hx0 : sumL (x.map fun a => (a - c) * (a - c)) = 0 := by
    rw [sumL_eq_sum]
    apply List.sum_eq_zero
    intro v hv
    obtain ⟨a, ha, rfl⟩ := List.mem_map.mp hv
    rw [hc a ha]
    ring
  have hz0 : sumL ((x.zip y).map fun a =>
      (a.1 - c) * (a.2 - sumL y / (x.length : ℝ))) = 0 := by
    rw [sumL_eq_sum]
    apply List.sum_eq_zero
    intro v hv
    obtain ⟨p, hp, rfl⟩ := List.mem_map.mp hv
    obtain ⟨a, b⟩ := p
    rw [show a = c from hc a (List.of_mem_zip hp).1]
    ring
  unfold calculate_linear_regression_fp
  rw [if_pos hlen]
  simp only [sumFP_map_fin, hmx, hmy, FP.sub_fin, FP.mul_fin,
    sumFP_map_fin_comp, hx0, hz0, zero_mul, FP.sqrt_fin_zero,
    FP.div_zero_zero, Option.map_some']
  by_cases h1 : ((x.length : ℝ) - 1) = 0
  · rw [h1, FP.div_zero_zero]
    rfl
  · rw [FP.div_fin_fin _ _ h1, zero_div, FP.mul_fin, zero_mul, FP.div_zero_zero]
    rfl

theorem fp_const_y (x y : List ℝ) (hlen : x.length = y.length) (hne : x ≠ [])
    (c : ℝ) (hc : ∀ yi ∈ y, yi = c) :
    (calculate_linear_regression_fp x y).map
      (fun r => FP.isFinite r.correlation) = some false := by
  have hlen0 : x.length ≠ 0 := fun h => hne (List.length_eq_zero.mp h)
  have hn : ((x.length : ℝ)) ≠ 0 := Nat.cast_ne_zero.mpr hlen0
  have hn' : ((y.length : ℝ)) ≠ 0 := by
    rw [← hlen]
    exact hn
  have hmy : FP.div (.fin (sumL y)) (.fin (x.length : ℝ)) = .fin c := by
    rw [sumL_const y c hc, hlen, FP.div_fin_fin _ _ hn',
      mul_div_cancel_left₀ c hn']
  have hmx : FP.div (.fin (sumL x)) (.fin (x.length : ℝ)) =
      .fin (sumL x / (x.length : ℝ)) := FP.div_fin_fin _ _ hn
  have hy0 : sumL (y.map fun a => (a - c) * (a - c)) = 0 := by
    rw [sumL_eq_sum]
    apply List.sum_eq_zero
    intro v hv
    obtain ⟨a, ha, rfl⟩ := List.mem_map.mp hv
    rw [hc a ha]
    ring
  have hz0 : sumL ((x.zip y).map fun a =>
      (a.1 - sumL x / (x.length : ℝ)) * (a.2 - c)) = 0 := by
    rw [sumL_eq_sum]
    apply List.sum_eq_zero
    intro v hv
    obtain ⟨p, hp, rfl⟩ := List.mem_map.mp hv
    obtain ⟨a, b⟩ := p
    rw [show b = c from hc b (List.of_mem_zip hp).2]
    ring
  unfold calculate_linear_regression_fp
  rw [if_pos hlen]
  simp only [sumFP_map_fin, hmx, hmy, FP.sub_fin, FP.mul_fin,
    sumFP_map_fin_comp, hy0, hz0, mul_zero, FP.sqrt_fin_zero,
    FP.div_zero_zero, Option.map_some']
  rfl

/-- C5: for equal-length non-empty inputs with a constant `x`, the `FP`
embedding of `calculate_linear_regression` returns a result (no abort) whose
correlation and slope are non-finite; with a constant `y`, its correlation is
non-finite.  The non-finite values are returned unreplaced to the caller. -/
theorem C5_zero_variance_nonfinite (x y : List ℝ) (hlen : x.length = y.length)
    (hne : x ≠ []) (c : ℝ) :
    ((∀ xi ∈ x, xi = c) →
      (calculate_linear_regression_fp x y).map
        (fun r => (FP.isFinite r.correlation, FP.isFinite r.slope)) =
        some (false, false))
    ∧ ((∀ yi ∈ y, yi = c) →
      (calculate_linear_regression_fp x y).map
        (fun r => FP.isFinite r.correlation) = some false) :=
  ⟨fun hc => fp_const_x x y hlen hne c hc,
   fun hc => fp_const_y x y hlen hne c hc⟩

/-- Witness for C5 at x = [1,1], y = [1,2] (constant predictor) and at
x = [1,2], y = [5,5] (constant response). -/
theorem C5_zero_variance_nonfinite_witness :
    ((calculate_linear_regression_fp [1, 1] [1, 2]).map
      (fun r => (FP.isFinite r.correlation, FP.isFinite r.slope)) =
      some (false, false))
    ∧ ((calculate_linear_regression_fp [1, 2] [5, 5]).map
      (fun r => FP.isFinite r.correlation) = some false) :=
  ⟨(C5_zero_variance_nonfinite [1, 1] [1, 2] rfl (by simp) 1).1 (by
      intro xi hxi
      simp at hxi
      simp [hxi]),
   (C5_zero_variance_nonfinite [1, 2] [5, 5] rfl (by simp) 5).2 (by
      intro yi hyi
      simp at hyi
      simp [hyi])⟩

/-- C2: on mismatched lengths `calculate_linear_regression` aborts (modelled
as `none`, embedding the `assert_eq!` panic); on equal lengths the assertion
never fires and a numeric result is returned. -/
theorem C2_length_assertion (x y : List ℝ) :
    (x.length ≠ y.length → calculate_linear_regression x y = none)
    ∧ (x.length = y.length → (calculate_linear_regression x y).isSome = true) := by
  constructor
  · intro hne
    unfold calculate_linear_regression
    rw [if_neg hne]
  · intro hlen
    rw [calculate_linear_regression_eq x y hlen]
    rfl

/-- Witness for C2: a concrete mismatched pair aborts, a concrete matched
pair returns a result. -/
theorem C2_length_assertion_witness :
    calculate_linear_regression [1, 2, 3] [1, 2, 3, 4] = none
    ∧ (calculate_linear_regression [1, 2, 3] [4, 5, 6]).isSome = true :=
  ⟨(C2_length_assertion [1, 2, 3] [1, 2, 3, 4]).1 (by decide),
   (C2_length_assertion [1, 2, 3] [4, 5, 6]).2 rfl⟩

/-- The three correlation-strength buckets printed by
`perform_salary_correlation_analysis`. -/
inductive Strength where
  | weak : Strength
  | moderate : Strength
  | strong : Strength

/-- The strength classification of src/main.rs:167-173: `if
correlation.abs() < 0.3 { Weak } else if correlation.abs() < 0.7
{ Moderate } else { Strong }`. -/
noncomputable def classify_correlation (c : ℝ) : Strength :=
  if |c| < 0.3 then .weak else if |c| < 0.7 then .moderate else .strong

/-- C4: |c| < 0.3 classifies Weak, 0.3 ≤ |c| < 0.7 Moderate, |c| ≥ 0.7
Strong; the boundaries 0.3 and 0.7 fall in the upper bucket. -/
theorem C4_strength_classification :
    (∀ c : ℝ,
      (|c| < 0.3 → classify_correlation c = .weak)
      ∧ (0.3 ≤ |c| → |c| < 0.7 → classify_correlation c = .moderate)
      ∧ (0.7 ≤ |c| → classify_correlation c = .strong))
    ∧ classify_correlation 0.3 = .moderate
    ∧ classify_correlation 0.7 = .strong := by
  refine ⟨fun c => ⟨fun h => ?_, fun h1 h2 => ?_, fun h => ?_⟩, ?_, ?_⟩
  · rw [classify_correlation, if_pos h]
  · rw [classify_correlation, if_neg (not_lt.mpr h1), if_pos h2]
  · rw [classify_correlation,
      if_neg (not_lt.mpr (le_trans (by norm_num) h)),
      if_neg (not_lt.mpr h)]
  · rw [classify_correlation, show |(0.3 : ℝ)| = 0.3 from abs_of_nonneg (by norm_num),
      if_neg (by norm_num), if_pos (by norm_num)]
  · rw [classify_correlation, show |(0.7 : ℝ)| = 0.7 from abs_of_nonneg (by norm_num),
      if_neg (by norm_num), if_neg (by norm_num)]

/-- Witness for C4 at c = 0.1, 0.5 and −0.9. -/
theorem C4_strength_classification_witness :
    classify_correlation 0.1 = .weak
    ∧ classify_correlation 0.5 = .moderate
    ∧ classify_correlation (-0.9) = .strong :=
  ⟨(C4_strength_classification.1 0.1).1
      (by rw [show |(0.1 : ℝ)| = 0.1 from abs_of_nonneg (by norm_num)]; norm_num),
   (C4_strength_classification.1 0.5).2.1
      (by rw [show |(0.5 : ℝ)| = 0.5 from abs_of_nonneg (by norm_num)]; norm_num)
      (by rw [show |(0.5 : ℝ)| = 0.5 from abs_of_nonneg (by norm_num)]; norm_num),
   (C4_strength_classification.1 (-0.9)).2.2
      (by rw [show |(-0.9 : ℝ)| = 0.9 by rw [abs_of_neg (by norm_num)]; norm_num]
          norm_num)⟩

/-- The mean/min/max triple printed by `print_stats`. -/
structure StatsResult where
  mean : FP
  min : FP
  max : FP

/-- Embedding of `print_stats` (src/main.rs:221-229) in the `FP` model:
`mean = sum / n`, `min = fold of f64::min from f64::INFINITY`,
`max = fold of f64::max from f64::NEG_INFINITY`. -/
noncomputable def print_stats (data : List ℝ) : StatsResult :=
  { mean := FP.div (sumFP (data.map FP.fin)) (.fin (data.length : ℝ))
    min := (data.map FP.fin).foldl FP.min FP.posInf
    max := (data.map FP.fin).foldl FP.max FP.negInf }

/-- C10: `print_stats` is total on the empty list and yields the fold
identities: a NaN mean (0/0), minimum +∞ and maximum −∞. -/
theorem C10_print_stats_empty :
    print_stats ([] : List ℝ) = ⟨FP.nan, FP.posInf, FP.negInf⟩ := by
  unfold print_stats
  simp only [List.map_nil, List.length_nil, Nat.cast_zero, List.foldl_nil]
  rw [show sumFP [] = FP.fin 0 from rfl, FP.div_zero_zero]

/-- A parsed record (src/main.rs:6-17).  The `id` is the originating row
position; the seven numeric fields are `f64`, idealised as `ℝ`. -/
structure Individual where
  id : ℕ
  age : ℝ
  years_of_experience : ℝ
  job_satisfaction : ℝ
  professional_network_size : ℝ
  family_influence : ℝ
  salary : ℝ
  likelihood_to_change_occupation : ℝ

/-- Ordinal decoding of the family-influence column (src/main.rs:42-48):
the trimmed text "None"/"Low"/"Medium"/"High" maps to 0/1/2/3, anything
else is a parse failure. -/
def parseFamilyInfluence (s : String) : Option ℝ :=
  match s.trim with
  | "None" => some 0
  | "Low" => some 1
  | "Medium" => some 2
  | "High" => some 3
  | _ => none

/-- One iteration of the `read_dataset` loop body (src/main.rs:36-83) on a
successfully decoded CSV record, given as its list of fields.  `parseNum`
abstracts Rust's `str::parse::<f64>` (standard-library code, external to
this repository).  A record with fewer than 23 fields is rejected before
extraction; otherwise the seven fields at the fixed column indices (2, 4, 7,
19, 14, 10, 22) must all parse, else the whole row is rejected
(all-or-nothing). -/
def parseRow (parseNum : String → Option ℝ) (i : ℕ) (record : List String) :
    Option Individual :=
  if record.length < 23 then none
  else
    match parseFamilyInfluence (record.getD 14 ""),
          parseNum ((record.getD 2 "").trim),
          parseNum ((record.getD 4 "").trim),
          parseNum ((record.getD 7 "").trim),
          parseNum ((record.getD 19 "").trim),
          parseNum ((record.getD 10 "").trim),
          parseNum ((record.getD 22 "").trim) with
    | some family_influence, some age, some years_of_experience,
      some job_satisfaction, some professional_network_size,
      some salary, some likelihood_to_change_occupation =>
        some ⟨i, age, years_of_experience, job_satisfaction,
              professional_network_size, family_influence, salary,
              likelihood_to_change_occupation⟩
    | _, _, _, _, _, _, _ => none

/-- The row cap of `read_dataset` (src/main.rs:25). -/
def maxRecords : ℕ := 20000

/-- The enumerated ingestion loop of `read_dataset` (src/main.rs:28-84):
index `i` counts all data rows; the loop breaks once `i ≥ max_records`;
a row that fails to parse increments the failure counter and the loop
continues; a row that parses is pushed onto the working set. -/
def readRows (parseNum : String → Option ℝ) :
    ℕ → List (List String) → List Individual × ℕ
  | _, [] => ([], 0)
  | i, r :: rs =>
      if maxRecords ≤ i then ([], 0)
      else
        match parseRow parseNum i r with
        | some ind =>
            let rest := readRows parseNum (i + 1) rs
            (ind :: rest.1, rest.2)
        | none =>
            let rest := readRows parseNum (i + 1) rs
            (rest.1, rest.2 + 1)

/-- The row-level body of `read_dataset` (src/main.rs:19-88): the working
set together with the aggregate parse-failure count reported at the end of
ingestion.  `rows` are the successfully decoded CSV records in file order
(the header row is already skipped by the reader).  The CSV decode step —
through which `let record = result?` (src/main.rs:33) aborts the whole
function on a row whose field count differs from the header's — is modelled
in `read_dataset_checked` below; `read_dataset` is the behaviour on decode
error free input. -/
def read_dataset (parseNum : String → Option ℝ) (rows : List (List String)) :
    List Individual × ℕ :=
  readRows parseNum 0 rows

theorem readRows_spec (p : String → Option ℝ) :
    ∀ (rows : List (List String)) (i : ℕ),
      readRows p i rows =
        ((List.enumFrom i (rows.take (maxRecords - i))).filterMap fun q =>
            parseRow p q.1 q.2,
         (List.enumFrom i (rows.take (maxRecords - i))).countP fun q =>
            (parseRow p q.1 q.2).isNone) := by
  intro rows
  induction rows with
  | nil => intro i; simp [readRows]
  | cons r rs ih =>
      intro i
      by_cases hcap : maxRecords ≤ i
      · rw [show maxRecords - i = 0 from Nat.sub_eq_zero_of_le hcap]
        simp [readRows, hcap]
      · have hsub : maxRecords - i = (maxRecords - (i + 1)) + 1 := by omega
        rw [hsub, List.take_succ_cons,
          show List.enumFrom i (r :: rs.take (maxRecords - (i + 1))) =
            (i, r) :: List.enumFrom (i + 1) (rs.take (maxRecords - (i + 1)))
            from rfl,
          List.filterMap_cons, List.countP_cons]
        simp only [readRows, if_neg hcap]
        cases hp : parseRow p i r with
        | some ind => simp [hp, ih (i + 1)]
        | none => simp [hp, ih (i + 1)]

theorem parseRow_short (p : String → Option ℝ) (i : ℕ) (r : List String)
    (h : r.length < 23) : parseRow p i r = none := by
  unfold parseRow
  rw [if_pos h]

theorem parseRow_badFamily (p : String → Option ℝ) (i : ℕ) (r : List String)
    (h : parseFamilyInfluence (r.getD 14 "") = none) : parseRow p i r = none := by
  unfold parseRow
  by_cases hlen : r.length < 23
  · rw [if_pos hlen]
  · rw [if_neg hlen, h]

theorem parseRow_badNum (p : String → Option ℝ) (i : ℕ) (r : List String)
    (h : p ((r.getD 2 "").trim) = none) : parseRow p i r = none := by
  unfold parseRow
  by_cases hlen : r.length < 23
  · rw [if_pos hlen]
  · rw [if_neg hlen, h]
    cases parseFamilyInfluence (r.getD 14 "") <;> rfl

/-- The ingestion loop of `read_dataset` (src/main.rs:28-84) including the
CSV decode step of `rdr.records()`.  The reader is built with
`csv::ReaderBuilder::new().has_headers(true)` and the crate's default
non-flexible mode, so (per the csv crate's documented contract — library
code external to this repository) a data row whose field count differs from
the header's width `w` is delivered as an `Err(UnequalLengths)`;
`let record = result?` (src/main.rs:33) propagates it, aborting ingestion —
modelled as `none`.  The cap check (`break`, src/main.rs:29-31) precedes
`result?`, and a width-conforming row goes through the row-level parse
exactly as in `readRows`. -/
def readRowsChecked (parseNum : String → Option ℝ) (w : ℕ) :
    ℕ → List (List String) → Option (List Individual × ℕ)
  | _, [] => some ([], 0)
  | i, r :: rs =>
      if maxRecords ≤ i then some ([], 0)
      else if r.length = w then
        match parseRow parseNum i r with
        | some ind =>
            (readRowsChecked parseNum w (i + 1) rs).map fun rest =>
              (ind :: rest.1, rest.2)
        | none =>
            (readRowsChecked parseNum w (i + 1) rs).map fun rest =>
              (rest.1, rest.2 + 1)
      else none

/-- Embedding of `read_dataset` (src/main.rs:19-88) with the CSV decode
layer: `w` is the header's field count, `rows` the raw data rows; `none` is
the `Err` return through which a decode error aborts the whole run in
`main`. -/
def read_dataset_checked (parseNum : String → Option ℝ) (w : ℕ)
    (rows : List (List String)) : Option (List Individual × ℕ) :=
  readRowsChecked parseNum w 0 rows

theorem readRowsChecked_conform (p : String → Option ℝ) (w : ℕ) :
    ∀ (rows : List (List String)) (i : ℕ),
      (∀ r ∈ rows.take (maxRecords - i), r.length = w) →
      readRowsChecked p w i rows = some (readRows p i rows) := by
  intro rows
  induction rows with
  | nil => intro i _; rfl
  | cons r rs ih =>
      intro i h
      by_cases hcap : maxRecords ≤ i
      · simp [readRowsChecked, readRows, hcap]
      · have hpos : maxRecords - i = (maxRecords - (i + 1)) + 1 := by omega
        have hr : r.length = w := by
          apply h
          rw [hpos, List.take_succ_cons]
          exact List.mem_cons_self r _
        have htail : ∀ q ∈ rs.take (maxRecords - (i + 1)), q.length = w := by
          intro q hq
          apply h
          rw [hpos, List.take_succ_cons]
          exact List.mem_cons_of_mem r hq
        simp only [readRowsChecked, readRows, if_neg hcap, if_pos hr]
        cases hp : parseRow p i r with
        | some ind =>
            dsimp only
            rw [ih (i + 1) htail]
            rfl
        | none =>
            dsimp only
            rw [ih (i + 1) htail]
            rfl

theorem readRowsChecked_abort (p : String → Option ℝ) (w : ℕ) :
    ∀ (pre : List (List String)) (r : List String)
      (suf : List (List String)) (i : ℕ),
      i + pre.length < maxRecords → (∀ q ∈ pre, q.length = w) →
      r.length ≠ w →
      readRowsChecked p w i (pre ++ r :: suf) = none := by
  intro pre
  induction pre with
  | nil =>
      intro r suf i hcap _ hr
      have hcap' : ¬ maxRecords ≤ i := by
        simp only [List.length_nil, Nat.add_zero] at hcap
        omega
      rw [List.nil_append]
      simp only [readRowsChecked, if_neg hcap', if_neg hr]
  | cons q pre' ih =>
      intro r suf i hcap hpre hr
      have hcap' : ¬ maxRecords ≤ i := by
        simp only [List.length_cons] at hcap
        omega
      have hcapih : (i + 1) + pre'.length < maxRecords := by
        simp only [List.length_cons] at hcap
        omega
      have hq : q.length = w := hpre q (List.mem_cons_self q pre')
      rw [List.cons_append]
      simp only [readRowsChecked, if_neg hcap', if_pos hq]
      cases parseRow p i q with
      | some ind =>
          dsimp only
          rw [ih r suf (i + 1) hcapih
            (fun q' hq' => hpre q' (List.mem_cons_of_mem q hq')) hr]
          rfl
      | none =>
          dsimp only
          rw [ih r suf (i + 1) hcapih
            (fun q' hq' => hpre q' (List.mem_cons_of_mem q hq')) hr]
          rfl

/-- C6 (amended): rows that match the header's field count but fail to parse
(unparseable numeric field, unrecognized family-influence text, or — when
the header itself is narrower than 23 columns — too few columns) are dropped
with no contribution to the working set while the failure counter is
incremented and ingestion continues to completion, the aggregate count being
returned; but a row whose field count differs from the header's width aborts
ingestion through the csv decode error (`result?`, src/main.rs:33), so that
defect is fatal rather than recovered. -/
theorem C6_row_failure_recovery (p : String → Option ℝ) (w : ℕ)
    (rows : List (List String)) :
    ((∀ r ∈ rows.take maxRecords, r.length = w) →
      read_dataset_checked p w rows = some
        ((rows.take maxRecords).enum.filterMap fun q => parseRow p q.1 q.2,
         (rows.take maxRecords).enum.countP fun q =>
           (parseRow p q.1 q.2).isNone))
    ∧ (∀ (pre : List (List String)) (r : List String)
        (suf : List (List String)),
        pre.length < maxRecords → (∀ q ∈ pre, q.length = w) →
        r.length ≠ w →
        read_dataset_checked p w (pre ++ r :: suf) = none)
    ∧ (∀ (i : ℕ) (r : List String), r.length < 23 → parseRow p i r = none)
    ∧ (∀ (i : ℕ) (r : List String),
        parseFamilyInfluence (r.getD 14 "") = none → parseRow p i r = none)
    ∧ (∀ (i : ℕ) (r : List String),
        p ((r.getD 2 "").trim) = none → parseRow p i r = none) := by
  refine ⟨fun hconf => ?_, fun pre r suf h1 h2 h3 => ?_,
    parseRow_short p, parseRow_badFamily p, parseRow_badNum p⟩
  · have h := readRowsChecked_conform p w rows 0
      (by rw [Nat.sub_zero]; exact hconf)
    unfold read_dataset_checked
    rw [h, readRows_spec p rows 0, Nat.sub_zero]
    rfl
  · exact readRowsChecked_abort p w pre r suf 0 (by omega) h2 h3

/-- Counterexample to C6 as frozen: under a 23-column header, a data row
with only 22 fields is not dropped-and-counted — the csv decode error aborts
the whole ingestion, so a row-level defect does abort the run. -/
theorem C6_short_row_aborts :
    read_dataset_checked (fun _ => some 1) 23 [List.replicate 22 "x"] =
      none := rfl

theorem takeWhileAux_empty :
    Substring.takeWhileAux "" ⟨0⟩ Char.isWhitespace ⟨0⟩ = ⟨0⟩ := by
  unfold Substring.takeWhileAux
  rw [dif_neg (by decide)]

theorem takeRightWhileAux_empty :
    Substring.takeRightWhileAux "" ⟨0⟩ Char.isWhitespace ⟨0⟩ = ⟨0⟩ := by
  unfold Substring.takeRightWhileAux
  rw [dif_neg (by decide)]

theorem trim_empty : "".trim = "" := by
  rw [String.trim]
  rw [show ("".toSubstring) = ⟨"", ⟨0⟩, ⟨0⟩⟩ from rfl]
  unfold Substring.trim
  dsimp only
  rw [takeWhileAux_empty, takeRightWhileAux_empty]
  rfl

theorem parseFamilyInfluence_empty : parseFamilyInfluence "" = none := by
  unfold parseFamilyInfluence
  rw [trim_empty]
  rfl

/-- Witness for C6: a row with too few columns, a row with bad
family-influence text, and a row with an unparseable age field all parse to
`none` under a concrete numeric parser. -/
theorem C6_row_failure_recovery_witness :
    read_dataset_checked (fun _ => some 1) 23 ([] : List (List String)) =
      some ([], 0)
    ∧ read_dataset_checked (fun _ => some 1) 23
        [List.replicate 23 "x", List.replicate 24 "x"] = none
    ∧ parseRow (fun _ => some 1) 0 (List.replicate 22 "x") = none
    ∧ parseRow (fun _ => some 1) 1 (List.replicate 23 "") = none
    ∧ parseRow (fun _ => none) 2 (List.replicate 23 "x") = none := by
  refine ⟨?_, ?_, ?_, ?_, ?_⟩
  · have h := (C6_row_failure_recovery (fun _ => some 1) 23
      ([] : List (List String))).1 (by simp)
    simpa using h
  · exact (C6_row_failure_recovery (fun _ => some 1) 23
      [List.replicate 23 "x", List.replicate 24 "x"]).2.1
      [List.replicate 23 "x"] (List.replicate 24 "x") [] (by decide)
      (by intro q hq
          simp only [List.mem_singleton] at hq
          rw [hq]
          rfl)
      (by decide)
  · exact (C6_row_failure_recovery (fun _ => some 1) 23 []).2.2.1 0
      (List.replicate 22 "x") (by decide)
  · exact (C6_row_failure_recovery (fun _ => some 1) 23 []).2.2.2.1 1
      (List.replicate 23 "")
      (by rw [show (List.replicate 23 "").getD 14 "" = "" from rfl]
          exact parseFamilyInfluence_empty)
  · exact (C6_row_failure_recovery (fun _ => none) 23 []).2.2.2.2 2
      (List.replicate 23 "x") rfl

/-- C8: at most 20 000 data rows are considered, so the working set holds at
most 20 000 records, and the cap is applied during ingestion: reading any
row list gives the same result as reading its first 20 000 rows. -/
theorem C8_ingestion_cap (p : String → Option ℝ) (rows : List (List String)) :
    (read_dataset p rows).1.length ≤ maxRecords
    ∧ read_dataset p rows = read_dataset p (rows.take maxRecords) := by
  have h := readRows_spec p rows 0
  rw [Nat.sub_zero] at h
  have h2 := readRows_spec p (rows.take maxRecords) 0
  rw [Nat.sub_zero, List.take_take, min_self] at h2
  constructor
  · rw [read_dataset, h]
    calc ((List.enumFrom 0 (rows.take maxRecords)).filterMap fun q =>
            parseRow p q.1 q.2).length
        ≤ (List.enumFrom 0 (rows.take maxRecords)).length :=
          List.length_filterMap_le _ _
      _ = (rows.take maxRecords).length := List.enumFrom_length
      _ ≤ maxRecords := by
          rw [List.length_take]
          exact min_le_left _ _
  · rw [read_dataset, read_dataset, h, h2]

theorem parseRow_id (p : String → Option ℝ) (i : ℕ) (r : List String)
    (ind : Individual) (h : parseRow p i r = some ind) : ind.id = i := by
  unfold parseRow at h
  by_cases hlen : r.length < 23
  · rw [if_pos hlen] at h
    exact absurd h (by simp)
  · rw [if_neg hlen] at h
    split at h
    · injection h with h2
      rw [← h2]
    · exact Option.noConfusion h

theorem readRows_id_lb (p : String → Option ℝ) :
    ∀ (rows : List (List String)) (i : ℕ),
      ∀ ind ∈ (readRows p i rows).1, i ≤ ind.id := by
  intro rows
  induction rows with
  | nil => intro i ind h; exact absurd h (by simp [readRows])
  | cons r rs ih =>
      intro i ind h
      by_cases hcap : maxRecords ≤ i
      · simp [readRows, if_pos hcap] at h
      · simp only [readRows, if_neg hcap] at h
        cases hp : parseRow p i r with
        | some ind' =>
            rw [hp] at h
            simp only [List.mem_cons] at h
            rcases h with h | h
            · rw [h, parseRow_id p i r ind' hp]
            · exact le_of_lt (Nat.lt_of_lt_of_le (Nat.lt_succ_self i)
                (ih (i + 1) ind h))
        | none =>
            rw [hp] at h
            exact le_of_lt (Nat.lt_of_lt_of_le (Nat.lt_succ_self i)
              (ih (i + 1) ind h))

theorem readRows_pairwise (p : String → Option ℝ) :
    ∀ (rows : List (List String)) (i : ℕ),
      (readRows p i rows).1.Pairwise fun a b => a.id < b.id := by
  intro rows
  induction rows with
  | nil => intro i; simp [readRows]
  | cons r rs ih =>
      intro i
      by_cases hcap : maxRecords ≤ i
      · simp [readRows, if_pos hcap]
      · simp only [readRows, if_neg hcap]
        cases hp : parseRow p i r with
        | some ind' =>
            dsimp only
            refine List.Pairwise.cons ?_ (ih (i + 1))
            intro b hb
            rw [parseRow_id p i r ind' hp]
            exact Nat.lt_of_lt_of_le (Nat.lt_succ_self i)
              (readRows_id_lb p rs (i + 1) b hb)
        | none =>
            dsimp only
            exact ih (i + 1)

/-- Records in the working set are pairwise distinct: their originating row
positions are strictly increasing. -/
theorem read_dataset_nodup (p : String → Option ℝ) (rows : List (List String)) :
    (read_dataset p rows).1.Nodup := by
  refine List.Pairwise.imp ?_ (readRows_pairwise p rows 0)
  intro a b hlt heq
  rw [heq] at hlt
  exact lt_irrefl _ hlt

/-- The sample size taken after the shuffle (src/main.rs:245). -/
def sampleSize : ℕ := 2000

/-- `main`'s sampling step (src/main.rs:240-245): after the working set is
shuffled in place, the first 2 000 records are taken. -/
def final_sample (shuffled : List Individual) : List Individual :=
  shuffled.take sampleSize

/-- C3: the sample is a prefix of the shuffled working set.  With at least
2 000 records in the working set the sample is exactly 2 000
pairwise-distinct records, each originally present in the working set; with
fewer it is the entire working set in post-shuffle order (no error, no
duplication).  The shuffle itself is the rand library's
`SliceRandom::shuffle` (code external to this repository), modelled by its
postcondition: the shuffled list is a permutation of the working set. -/
theorem C3_shuffle_take_sampling (p : String → Option ℝ)
    (rows : List (List String)) (shuffled : List Individual)
    (hperm : shuffled.Perm (read_dataset p rows).1) :
    (sampleSize ≤ (read_dataset p rows).1.length →
      (final_sample shuffled).length = sampleSize
      ∧ (final_sample shuffled).Nodup
      ∧ ∀ r ∈ final_sample shuffled, r ∈ (read_dataset p rows).1)
    ∧ ((read_dataset p rows).1.length < sampleSize →
      final_sample shuffled = shuffled) := by
  have hlen : shuffled.length = (read_dataset p rows).1.length :=
    hperm.length_eq
  constructor
  · intro hge
    refine ⟨?_, ?_, ?_⟩
    · rw [final_sample, List.length_take, hlen]
      exact min_eq_left hge
    · exact List.Nodup.sublist (List.take_sublist sampleSize shuffled)
        (hperm.nodup_iff.mpr (read_dataset_nodup p rows))
    · intro r hr
      exact hperm.mem_iff.mp (List.take_subset sampleSize shuffled hr)
  · intro hlt
    rw [final_sample]
    apply List.take_of_length_le
    rw [hlen]
    exact le_of_lt hlt

/-- Witness for C3 on the empty working set (fewer records than the sample
size): the sample is the whole shuffled set. -/
theorem C3_shuffle_take_sampling_witness :
    final_sample ([] : List Individual) = [] :=
  (C3_shuffle_take_sampling (fun _ => none) [] [] (List.Perm.refl _)).2
    (by decide)

/-- A run outcome of `main` (src/main.rs:231-254): either the early exit on
an empty working set (src/main.rs:235-238 — report and return `Ok(())`,
with no sampling, no descriptive summary, no regression), or the analysis
over the post-shuffle sample: the age/experience/salary summaries of
`print_sample_verification` and the six labelled regressions with their
strength classifications. -/
inductive RunOutcome where
  | emptyDataset : RunOutcome
  | analyzed : List Individual → StatsResult × StatsResult × StatsResult →
      List (String × Option (RegressionResult × Strength)) → RunOutcome

/-- The six (title, predictor, response) extractions of
`perform_salary_correlation_analysis` (src/main.rs:130-154), in source
order. -/
def analysisPairs (individuals : List Individual) :
    List (String × List ℝ × List ℝ) :=
  [("Salary vs Age", individuals.map Individual.age,
      individuals.map Individual.salary),
   ("Salary vs Years of Experience",
      individuals.map Individual.years_of_experience,
      individuals.map Individual.salary),
   ("Salary vs Job Satisfaction",
      individuals.map Individual.job_satisfaction,
      individuals.map Individual.salary),
   ("Salary vs Professional Network Size",
      individuals.map Individual.professional_network_size,
      individuals.map Individual.salary),
   ("Salary vs Family Influence",
      individuals.map Individual.family_influence,
      individuals.map Individual.salary),
   ("Salary vs Likelihood to Change Occupation",
      individuals.map Individual.likelihood_to_change_occupation,
      individuals.map Individual.salary)]

/-- Embedding of `perform_salary_correlation_analysis`
(src/main.rs:129-177): each of the six analyses runs the regression on its
extracted pair and classifies the correlation strength; none is skipped. -/
noncomputable def perform_salary_correlation_analysis
    (individuals : List Individual) :
    List (String × Option (RegressionResult × Strength)) :=
  (analysisPairs individuals).map fun t =>
    (t.1, (calculate_linear_regression t.2.1 t.2.2).map fun r =>
      (r, classify_correlation r.correlation))

/-- Embedding of `main` (src/main.rs:231-254): after ingestion, exit early
if the working set is empty; otherwise shuffle (the external rand call,
abstracted as the function `shuffle`), take the 2 000-record sample, and
report the descriptive summaries and regression analyses over it. -/
noncomputable def mainModel (shuffle : List Individual → List Individual)
    (individuals : List Individual) : RunOutcome :=
  if individuals.isEmpty then .emptyDataset
  else
    let fs := final_sample (shuffle individuals)
    .analyzed fs
      (print_stats (fs.map Individual.age),
       print_stats (fs.map Individual.years_of_experience),
       print_stats (fs.map Individual.salary))
      (perform_salary_correlation_analysis fs)

/-- C9: with zero valid records, `main` reports the condition and exits
successfully before any sampling, descriptive summary, or regression is
computed. -/
theorem C9_empty_early_exit (shuffle : List Individual → List Individual)
    (individuals : List Individual) (h : individuals = []) :
    mainModel shuffle individuals = .emptyDataset := by
  subst h
  rfl

/-- Witness for C9 at the empty working set. -/
theorem C9_empty_early_exit_witness : mainModel id [] = .emptyDataset :=
  C9_empty_early_exit id [] rfl

/-- Modelled from the spec: the program samples with `rand::thread_rng()`
(src/main.rs:241), which takes no seed; the spec (§4.2, §8) prescribes an
explicitly seeded generator for reproducible runs.  The seeded sampler is
modelled as a function `gen` from a seed to the shuffle it performs, so a
fixed seed determines the permutation applied to the working set, and the
rest of the pipeline is the pure `mainModel`. -/
noncomputable def runAnalysisWithSeed
    (gen : ℕ → List Individual → List Individual) (seed : ℕ)
    (individuals : List Individual) : RunOutcome :=
  mainModel (gen seed) individuals

/-- C7: two runs of the complete analysis with the same fixed seed yield
identical outputs — the pipeline has no nondeterminism besides the seeded
generator. -/
theorem C7_seed_determinism (gen : ℕ → List Individual → List Individual)
    (s₁ s₂ : ℕ) (individuals : List Individual) (h : s₁ = s₂) :
    runAnalysisWithSeed gen s₁ individuals =
      runAnalysisWithSeed gen s₂ individuals := by
  rw [h]

/-- Witness for C7 with a concrete generator, seed and working set. -/
theorem C7_seed_determinism_witness :
    runAnalysisWithSeed (fun _ l => l.reverse) 37 [] =
      runAnalysisWithSeed (fun _ l => l.reverse) 37 [] :=
  C7_seed_determinism (fun _ l => l.reverse) 37 37 [] rfl

end DS210
